import Mathlib

/-!
Shallow embedding of `CloudWatchLogDataTransformer.py` (a CloudWatch Logs to
Kinesis Firehose transformer Lambda) and verification of its specification.

The Python module is embedded function by function:
* `transformLogEvent`, `createRecordsFromLogEvents`, `putRecordsToFirehoseStream`,
  `processRecords`, `lambda_handler` and the module-level logging configuration
  keep their source names.
* External library calls (the boto3 Firehose client, `base64`/`gzip`/`json`
  decoding, `datetime.fromtimestamp(...).isoformat()`, `str.split`, `str.lower`)
  are modelled as explicit parameters or as Lean functions mirroring their
  documented behaviour; each carries a doc comment saying what it stands for.
* Python exceptions are modelled as explicit error values.
-/

/-- One Firehose record as built by the source: a Python dict `{"Data": dataBytes}`,
with the bytes modelled as the UTF-8 string they encode. -/
structure FirehoseRecord where
  Data : String
deriving DecidableEq

/-- One entry of `response['RequestResponses']`: `errorCode = none` models a dict
with no `'ErrorCode'` key, `some c` models `res['ErrorCode'] == c`. -/
structure RecordResponse where
  errorCode : Option String
deriving DecidableEq

/-- The response of `client.put_record_batch`: `FailedPutCount` and
`RequestResponses`. -/
structure BatchResponse where
  failedPutCount : Nat
  requestResponses : List RecordResponse
deriving DecidableEq

/-- Outcome of one `client.put_record_batch` call: a normal response, or a raised
exception (`exn msg` models `except Exception as e` with `str(e) = msg`). -/
inductive ClientResult where
  | ok : BatchResponse → ClientResult
  | exn : String → ClientResult
deriving DecidableEq

/-- The Firehose client, modelled as a function from the current `attemptsMade`
counter and the submitted records to the call's outcome.  The real boto3 client
may answer differently on every call; indexing by the attempt counter captures
that for the delivery coordinator, which makes exactly one call per attempt. -/
def FirehoseClient : Type := Nat → List FirehoseRecord → ClientResult

/-- How `putRecordsToFirehoseStream` terminates: normal return, a raised
`RuntimeError` (line 87), or an uncaught `IndexError` from `records[idx]`. -/
inductive DeliverOutcome where
  | success : DeliverOutcome
  | runtimeError : String → DeliverOutcome
  | pyIndexError : DeliverOutcome
deriving DecidableEq

/-! ### Timestamp rendering

`datetime.fromtimestamp(ms/1000.0).isoformat()` converts epoch milliseconds to a
local-time ISO-8601 string.  The local timezone is environment state, modelled
as an explicit UTC-offset-in-seconds parameter.  CPython rounds the float
`ms/1000.0` to the nearest microsecond; for every timestamp whose magnitude
keeps the double-rounding error below half a microsecond (all realistic
epoch-millis values, and every input appearing in a theorem below) that equals
exactly `ms * 1000` microseconds, which is how we model it. -/

/-- Left-pad the decimal rendering of `n` with zeros to width `w` (Python
`%0wd` for nonnegative values). -/
def padZero (w n : Nat) : String :=
  let s := toString n
  if s.length < w then String.mk (List.replicate (w - s.length) '0') ++ s else s

/-- Proleptic-Gregorian civil date from days since 1970-01-01
(Howard Hinnant's `civil_from_days`, as used by CPython's date conversion). -/
def civilFromDays (z0 : Int) : Int × Nat × Nat :=
  let z := z0 + 719468
  let era : Int := z.ediv 146097
  let doe : Nat := (z.emod 146097).toNat
  let yoe : Nat := (doe - doe / 1460 + doe / 36524 - doe / 146096) / 365
  let y : Int := (yoe : Int) + era * 400
  let doy : Nat := doe - (365 * yoe + yoe / 4 - yoe / 100)
  let mp : Nat := (5 * doy + 2) / 153
  let d : Nat := doy - (153 * mp + 2) / 5 + 1
  let m : Nat := if mp < 10 then mp + 3 else mp - 9
  (if m ≤ 2 then y + 1 else y, m, d)

/-- Seconds-precision ISO-8601 rendering of a local civil time given as seconds
since the epoch (`datetime.isoformat()` with zero microseconds). -/
def isoSecondsOfEpochSeconds (secs : Int) : String :=
  let days := secs.ediv 86400
  let sod := (secs.emod 86400).toNat
  let ymd := civilFromDays days
  padZero 4 ymd.1.toNat ++ "-" ++ padZero 2 ymd.2.1 ++ "-" ++ padZero 2 ymd.2.2 ++ "T" ++
    padZero 2 (sod / 3600) ++ ":" ++ padZero 2 (sod % 3600 / 60) ++ ":" ++ padZero 2 (sod % 60)

/-- ISO-8601 rendering of a local civil time given in microseconds since the
epoch: `datetime.isoformat()` appends `.%06d` exactly when the microsecond
component is nonzero. -/
def isoOfEpochMicros (micros : Int) : String :=
  let secs := micros.ediv 1000000
  let frac := (micros.emod 1000000).toNat
  if frac = 0 then isoSecondsOfEpochSeconds secs
  else isoSecondsOfEpochSeconds secs ++ "." ++ padZero 6 frac

/-- Model of `datetime.fromtimestamp(ms/1000.0).isoformat()` (source line 42) in
a timezone `tzOffsetSeconds` east of UTC: local civil time is the instant
shifted by the offset. -/
def pyFromtimestampIsoformat (tzOffsetSeconds ms : Int) : String :=
  isoOfEpochMicros (ms * 1000 + tzOffsetSeconds * 1000000)

/-- One CloudWatch log event as accessed by the source:
`logEvent['id']`, `logEvent['timestamp']` (epoch millis), `logEvent['message']`. -/
structure LogEvent where
  id : String
  timestamp : Int
  message : String
deriving DecidableEq

/-- `transformLogEvent` (source lines 40-49).  The Python dict is built by
inserting seven fresh string keys in order, so it is embedded as the
insertion-ordered association list.  `tz` is the process's local UTC offset in
seconds (environment state consumed by `datetime.fromtimestamp`). -/
def transformLogEvent (logEvent : LogEvent) (owner logGroup logStream : String)
    (tz : Int) : List (String × String) :=
  [("timestamp", pyFromtimestampIsoformat tz logEvent.timestamp),
   ("id", logEvent.id),
   ("type", "CloudWatchLogs"),
   ("@message", logEvent.message),
   ("@owner", owner),
   ("@log_group", logGroup),
   ("@log_stream", logStream)]

/-- `json.dumps` escaping of one string (default `ensure_ascii=True`), for the
ASCII/BMP range the repository's data lives in. -/
def jsonEscapeChar (c : Char) : String :=
  if c = '"' then "\\\""
  else if c = '\\' then "\\\\"
  else if c = '\n' then "\\n"
  else if c = '\t' then "\\t"
  else if c = '\r' then "\\r"
  else if c = '\x08' then "\\b"
  else if c = '\x0c' then "\\f"
  else if c.toNat < 32 ∨ c.toNat > 126 then
    "\\u" ++ padZero 4 c.toNat
  else String.singleton c

/-- `json.dumps` rendering of a flat dict of string keys and string values
(default separators `', '` and `': '`). -/
def jsonDumps (obj : List (String × String)) : String :=
  "\x7b" ++ String.intercalate ", "
      (obj.map fun kv =>
        "\"" ++ String.join (kv.1.data.map jsonEscapeChar) ++ "\": \"" ++
          String.join (kv.2.data.map jsonEscapeChar) ++ "\"") ++ "\x7d"

/-- `createRecordsFromLogEvents` (source lines 51-57): transform each event,
serialize it with `json.dumps(...).encode("utf-8")` and wrap it as
`{"Data": dataBytes}`; the loop-and-append is a map. -/
def createRecordsFromLogEvents (logEvents : List LogEvent)
    (owner logGroup logStream : String) (tz : Int) : List FirehoseRecord :=
  logEvents.map fun logEvent =>
    ⟨jsonDumps (transformLogEvent logEvent owner logGroup logStream tz)⟩

/-! ### Retrying delivery coordinator -/

/-- The per-record failure test of source lines 72-73: a record is kept iff
`'ErrorCode' in res and res['ErrorCode']` (a present-but-empty error code is
falsy, hence treated as succeeded). -/
def recordHasError (res : RecordResponse) : Bool :=
  match res.errorCode with
  | none => false
  | some c => c ≠ ""

/-- The scan of source lines 71-76: enumerate `RequestResponses`, skip entries
without a (nonempty) error code, and for each failing entry collect its error
code and `records[idx]`.  Returns `none` when `records[idx]` would raise
`IndexError`. -/
def collectFailed (records : List FirehoseRecord) :
    List RecordResponse → Nat → Option (List String × List FirehoseRecord)
  | [], _ => some ([], [])
  | res :: rest, idx =>
    if recordHasError res then
      match records.get? idx with
      | none => none
      | some r =>
        match collectFailed records rest (idx + 1) with
        | none => none
        | some (codes, failed) => some (res.errorCode.getD "" :: codes, r :: failed)
    else collectFailed records rest (idx + 1)

/-- One round of classification (source lines 60-78): on a raised exception all
submitted records fail with `errMsg = str(e)`; otherwise, when
`FailedPutCount > 0`, the per-record scan runs and
`errMsg = "Individual error codes: " + ','.join(codes)`; a zero
`FailedPutCount` yields no failed records at all.  Result is
`(failedRecords, errMsg)`, or `none` for an uncaught `IndexError`. -/
def putRound (records : List FirehoseRecord) (result : ClientResult) :
    Option (List FirehoseRecord × String) :=
  match result with
  | .exn e => some (records, e)
  | .ok resp =>
    if resp.failedPutCount > 0 then
      match collectFailed records resp.requestResponses 0 with
      | none => none
      | some (codes, failed) =>
        some (failed, "Individual error codes: " ++ String.intercalate "," codes)
    else some ([], "")

/-- `putRecordsToFirehoseStream` (source lines 59-87).  Besides the outcome it
returns the trace of record batches submitted to the client, one entry per
`put_record_batch` call, in call order (instrumentation; the Python function
returns nothing). -/
def putRecordsToFirehoseStream (streamName : String) (records : List FirehoseRecord)
    (client : FirehoseClient) (attemptsMade maxAttempts : Nat) :
    List (List FirehoseRecord) × DeliverOutcome :=
  match putRound records (client attemptsMade records) with
  | none => ([records], .pyIndexError)
  | some (failedRecords, errMsg) =>
    if failedRecords.length > 0 then
      if h : attemptsMade + 1 < maxAttempts then
        let rest := putRecordsToFirehoseStream streamName failedRecords client
          (attemptsMade + 1) maxAttempts
        (records :: rest.1, rest.2)
      else
        ([records],
          .runtimeError ("Could not put records after " ++ toString maxAttempts ++
            " attempts. " ++ errMsg))
    else ([records], .success)
termination_by maxAttempts - attemptsMade
decreasing_by omega

/-! ### Pipeline orchestrator -/

/-- One entry of the invocation's `records` list, as accessed by the source:
`r['data']` holds the base64 text. -/
structure InputItem where
  data : String
deriving DecidableEq

/-- The decoded JSON object of one input item.  Each field is `none` when the
corresponding key is absent from the parsed dict (subscripting it then raises
`KeyError`). -/
structure DecodedData where
  messageType : Option String
  owner : Option String
  logGroup : Option String
  logStream : Option String
  logEvents : Option (List LogEvent)
deriving DecidableEq

/-- Outcome of `json.loads(gzip.decompress(base64.b64decode(data)))`
(source lines 92-95): a parsed object, or a raised exception (bad base64, bad
gzip stream, or invalid JSON) with its message. -/
inductive DecodeResult where
  | ok : DecodedData → DecodeResult
  | err : String → DecodeResult
deriving DecidableEq

/-- The Python exceptions that can escape `processRecords` / `lambda_handler`. -/
inductive PyError where
  | decodeError : String → PyError
  | keyError : String → PyError
  | runtimeError : String → PyError
  | indexError : PyError
deriving DecidableEq

/-- Observable result of `processRecords`: `rV` is the list the function builds
(one transformed batch per `DATA_MESSAGE` item, appended before delivery),
`deliveries` records each `putRecordsToFirehoseStream` invocation as
(submitted batch, per-call client trace, outcome), and `err` is the exception
that aborted the loop, if any (when `err` is set the Python function raises,
so `rV` is never returned; it is kept as instrumentation). -/
structure ProcessOutput where
  rV : List (List FirehoseRecord)
  deliveries : List (List FirehoseRecord × List (List FirehoseRecord) × DeliverOutcome)
  err : Option PyError
deriving DecidableEq

/-- `processRecords` (source lines 89-104).  `decode` stands for the
base64+gzip+json pipeline applied to `r['data']`; `tz` is the local UTC offset
consumed by `transformLogEvent`.  There is no exception handler in the source:
any decode error, missing key, or delivery error aborts the loop, leaving the
remaining items unprocessed.  Field accesses happen in source order
(`messageType`, then — for a `DATA_MESSAGE` — the arguments of
`createRecordsFromLogEvents` left to right: `logEvents`, `owner`, `logGroup`,
`logStream`). -/
def processRecords (decode : String → DecodeResult) (records : List InputItem)
    (client : FirehoseClient) (streamName : String) (tz : Int) : ProcessOutput :=
  match records with
  | [] => ⟨[], [], none⟩
  | r :: rest =>
    match decode r.data with
    | .err e => ⟨[], [], some (.decodeError e)⟩
    | .ok d =>
      match d.messageType with
      | none => ⟨[], [], some (.keyError "messageType")⟩
      | some mt =>
        if mt = "DATA_MESSAGE" then
          match d.logEvents with
          | none => ⟨[], [], some (.keyError "logEvents")⟩
          | some logEvents =>
            match d.owner with
            | none => ⟨[], [], some (.keyError "owner")⟩
            | some owner =>
              match d.logGroup with
              | none => ⟨[], [], some (.keyError "logGroup")⟩
              | some logGroup =>
                match d.logStream with
                | none => ⟨[], [], some (.keyError "logStream")⟩
                | some logStream =>
                  let firehoseRecords :=
                    createRecordsFromLogEvents logEvents owner logGroup logStream tz
                  let put := putRecordsToFirehoseStream streamName firehoseRecords
                    client 0 20
                  match put.2 with
                  | .success =>
                    let restOut := processRecords decode rest client streamName tz
                    ⟨firehoseRecords :: restOut.rV,
                      (firehoseRecords, put.1, .success) :: restOut.deliveries,
                      restOut.err⟩
                  | .runtimeError m =>
                    ⟨[firehoseRecords], [(firehoseRecords, put.1, .runtimeError m)],
                      some (.runtimeError m)⟩
                  | .pyIndexError =>
                    ⟨[firehoseRecords], [(firehoseRecords, put.1, .pyIndexError)],
                      some .indexError⟩
        else processRecords decode rest client streamName tz

/-! ### Invocation handler -/

/-- Model of Python's `s.split(c)` on the character list: split at every
occurrence of `c`, keeping empty segments. -/
def splitCharList (c : Char) : List Char → List (List Char)
  | [] => [[]]
  | x :: xs =>
    match splitCharList c xs with
    | [] => [[]]
    | y :: ys => if x = c then [] :: y :: ys else (x :: y) :: ys

/-- Model of Python's `str.split` with a single-character separator (used on
line 110 as `event['deliveryStreamArn'].split('/')`). -/
def pySplit (c : Char) (s : String) : List String :=
  (splitCharList c s.data).map String.mk

/-- The invocation input as accessed by the source: `event['region']`,
`event['deliveryStreamArn']`, `event['records']`. -/
structure LambdaEvent where
  region : String
  deliveryStreamArn : String
  records : List InputItem
deriving DecidableEq

/-- `lambda_handler` (source lines 106-114).  Returns the exception it raises,
or `none` for a normal (valueless) return.  `event['deliveryStreamArn'].split('/')[1]`
raises `IndexError` when the split has no second segment; otherwise it is the
stream name passed to `processRecords` (the boto3 client construction from
`event['region']` is opaque and the client is a parameter). -/
def lambda_handler (decode : String → DecodeResult) (client : FirehoseClient)
    (event : LambdaEvent) (tz : Int) : Option PyError :=
  match (pySplit '/' event.deliveryStreamArn).get? 1 with
  | none => some PyError.indexError
  | some streamName => (processRecords decode event.records client streamName tz).err

/-! ### Module-level logging configuration -/

/-- Model of Python's `str.lower()` for the ASCII range. -/
def pyLower (s : String) : String :=
  String.mk (s.data.map Char.toLower)

/-- The `levels` dict (source lines 27-33), with the numeric values of
`logging.CRITICAL`, `ERROR`, `WARNING`, `INFO`, `DEBUG`. -/
def levels : List (String × Nat) :=
  [("critical", 50), ("error", 40), ("warn", 30), ("info", 20), ("debug", 10)]

/-- Result of the module-level `logger.setLevel(...)` block (source lines
35-38): either the level that gets set, or the uncaught `TypeError`. -/
inductive LogConfigResult where
  | level : Nat → LogConfigResult
  | typeError : LogConfigResult
deriving DecidableEq

/-- Source lines 35-38: `levels.get(os.getenv('LOG_LEVEL', 'info').lower())`
returns `None` (never raises `KeyError`) for an unrecognized value, and
`Logger.setLevel(None)` raises `TypeError`, which the `except KeyError` clause
does not catch; so the fallback `logger.setLevel(logging.INFO)` is unreachable
and an unrecognized value crashes the module import. -/
def configureLogLevel (logLevelEnv : Option String) : LogConfigResult :=
  match levels.lookup (pyLower (logLevelEnv.getD "info")) with
  | some lvl => .level lvl
  | none => .typeError

/-! ### Concrete scenario data -/

/-- Record batch used by concrete delivery scenarios. -/
def recA : FirehoseRecord := ⟨"payloadA"⟩

/-- Second record used by concrete delivery scenarios. -/
def recB : FirehoseRecord := ⟨"payloadB"⟩

/-- A client that fails the first record of the first call and then reports no
failures: round 0 fails `recA`, round 1 succeeds. -/
def c1client : FirehoseClient := fun n _ =>
  if n = 0 then .ok ⟨1, [⟨some "ServiceUnavailableException"⟩, ⟨none⟩]⟩
  else .ok ⟨0, []⟩

/-- A client reporting 100% failure on every call: each call returns a normal
response with a positive `FailedPutCount`, one per-record result per submitted
record, every one carrying a nonempty error code. -/
def alwaysFails (client : FirehoseClient) : Prop :=
  ∀ (n : Nat) (recs : List FirehoseRecord), ∃ resp : BatchResponse,
    client n recs = .ok resp ∧ 0 < resp.failedPutCount ∧
    resp.requestResponses.length = recs.length ∧
    ∀ r ∈ resp.requestResponses, recordHasError r = true

/-- A client that fails every submitted record on every call. -/
def c2client : FirehoseClient := fun _ recs =>
  .ok ⟨1, recs.map fun _ => ⟨some "InternalFailure"⟩⟩

/-- A client whose response reports a positive `FailedPutCount` but whose
per-record results carry only an empty or absent error code. -/
def c3client : FirehoseClient := fun _ _ => .ok ⟨1, [⟨some ""⟩, ⟨none⟩]⟩

/-- A client that always reports zero failures. -/
def c0client : FirehoseClient := fun _ _ => .ok ⟨0, []⟩

/-- A decode pipeline for which `"good"` parses to an empty `DATA_MESSAGE`
batch and anything else raises (models a corrupt gzip payload). -/
def c4decode : String → DecodeResult := fun s =>
  if s = "good" then
    .ok ⟨some "DATA_MESSAGE", some "acct1", some "/app/log", some "stream1", some []⟩
  else .err "Not a gzipped file"

/-- A decode pipeline returning a control message for every item. -/
def c8decode : String → DecodeResult := fun _ =>
  .ok ⟨some "CONTROL_MESSAGE", none, none, none, none⟩

/-- A decode pipeline returning a `DATA_MESSAGE` batch with no log events. -/
def c10decode : String → DecodeResult := fun _ =>
  .ok ⟨some "DATA_MESSAGE", some "acct1", some "/app/log", some "stream1", some []⟩

/-! ### Helper lemmas about the delivery coordinator -/

theorem drop_succ_sublist {α : Type} (l : List α) (n : Nat) :
    List.Sublist (l.drop (n + 1)) (l.drop n) := by
  have h := List.drop_sublist 1 (l.drop n)
  rw [List.drop_drop] at h
  simpa using h

theorem collectFailed_sublist (records : List FirehoseRecord) :
    ∀ (resps : List RecordResponse) (idx : Nat) (codes : List String)
      (failed : List FirehoseRecord),
      collectFailed records resps idx = some (codes, failed) →
      List.Sublist failed (records.drop idx) := by
  intro resps
  induction resps with
  | nil =>
    intro idx codes failed h
    simp only [collectFailed, Option.some.injEq, Prod.mk.injEq] at h
    rw [← h.2]
    exact List.nil_sublist _
  | cons res rest ih =>
    intro idx codes failed h
    simp only [collectFailed] at h
    by_cases he : recordHasError res
    · rw [if_pos he] at h
      cases hg : records.get? idx with
      | none => rw [hg] at h; exact absurd h (by simp)
      | some r =>
        rw [hg] at h
        cases hc : collectFailed records rest (idx + 1) with
        | none => rw [hc] at h; exact absurd h (by simp)
        | some p =>
          obtain ⟨codes1, failed1⟩ := p
          rw [hc] at h
          simp only [Option.some.injEq, Prod.mk.injEq] at h
          have hsub := ih (idx + 1) codes1 failed1 hc
          rw [List.get?_eq_getElem?] at hg
          obtain ⟨hlt, hr⟩ := List.getElem?_eq_some.mp hg
          rw [← h.2, List.drop_eq_getElem_cons hlt, hr]
          exact List.Sublist.cons₂ r hsub
    · rw [if_neg he] at h
      exact (ih (idx + 1) codes failed h).trans (drop_succ_sublist records idx)

theorem putRound_sublist {records failed : List FirehoseRecord} {msg : String}
    {res : ClientResult} (h : putRound records res = some (failed, msg)) :
    List.Sublist failed records := by
  cases res with
  | exn e =>
    simp only [putRound, Option.some.injEq, Prod.mk.injEq] at h
    rw [← h.1]
  | ok resp =>
    simp only [putRound] at h
    by_cases hc : resp.failedPutCount > 0
    · rw [if_pos hc] at h
      cases hcf : collectFailed records resp.requestResponses 0 with
      | none => rw [hcf] at h; exact absurd h (by simp)
      | some p =>
        obtain ⟨codes, f⟩ := p
        rw [hcf] at h
        simp only [Option.some.injEq, Prod.mk.injEq] at h
        have hsub := collectFailed_sublist records resp.requestResponses 0 codes f hcf
        rw [List.drop_zero] at hsub
        rw [← h.1]
        exact hsub
    · rw [if_neg hc] at h
      simp only [Option.some.injEq, Prod.mk.injEq] at h
      rw [← h.1]
      exact List.nil_sublist _

theorem putRecords_trace_head (streamName : String) (records : List FirehoseRecord)
    (client : FirehoseClient) (a m : Nat) :
    (putRecordsToFirehoseStream streamName records client a m).1.get? 0 = some records := by
  rw [putRecordsToFirehoseStream]
  split
  · rfl
  · split
    · split
      · rfl
      · rfl
    · rfl

theorem putRecords_chain_aux (streamName : String) (client : FirehoseClient) (m : Nat) :
    ∀ (n a : Nat) (records : List FirehoseRecord), m - a ≤ n →
      ∀ (i : Nat) (l l' : List FirehoseRecord),
        (putRecordsToFirehoseStream streamName records client a m).1.get? i = some l →
        (putRecordsToFirehoseStream streamName records client a m).1.get? (i + 1) = some l' →
        (putRound l (client (a + i) l)).map Prod.fst = some l' ∧ List.Sublist l' l := by
  intro n
  induction n with
  | zero =>
    intro a records hn i l l' h1 h2
    rw [putRecordsToFirehoseStream] at h2
    cases hp : putRound records (client a records) with
    | none => rw [hp] at h2; simp at h2
    | some p =>
      obtain ⟨failed, msg⟩ := p
      rw [hp] at h2
      by_cases hf : failed.length > 0
      · simp only [hf, if_true] at h2
        rw [dif_neg (by omega)] at h2
        simp at h2
      · simp only [hf, if_false] at h2
        simp at h2
  | succ n ih =>
    intro a records hn i l l' h1 h2
    rw [putRecordsToFirehoseStream] at h1 h2
    cases hp : putRound records (client a records) with
    | none =>
      rw [hp] at h2
      simp at h2
    | some p =>
      obtain ⟨failed, msg⟩ := p
      rw [hp] at h1 h2
      by_cases hf : failed.length > 0
      · simp only [hf, if_true] at h1 h2
        by_cases hg : a + 1 < m
        · rw [dif_pos hg] at h1 h2
          cases i with
          | zero =>
            simp only [List.get?_cons_zero, Option.some.injEq] at h1
            rw [List.get?_cons_succ] at h2
            rw [putRecords_trace_head streamName failed client (a + 1) m] at h2
            simp only [Option.some.injEq] at h2
            subst h1
            subst h2
            refine ⟨?_, putRound_sublist hp⟩
            rw [Nat.add_zero, hp]
            rfl
          | succ k =>
            rw [List.get?_cons_succ] at h1 h2
            have hrec := ih (a + 1) failed (by omega) k l l' h1 h2
            have heq : a + 1 + k = a + (k + 1) := by omega
            rw [heq] at hrec
            exact hrec
        · rw [dif_neg hg] at h2
          simp at h2
      · simp only [hf, if_false] at h2
        simp at h2

/-- C1: in every delivery run, each retry round resubmits exactly the records
classified failed by the previous round's `putRound` classification, in their
original relative order (a sublist, hence a never-larger subset of the
previous round's submission); and a raised client exception classifies all
records submitted in that round as failed. -/
theorem putRecords_retry_rounds (streamName : String) (records : List FirehoseRecord)
    (client : FirehoseClient) (a m : Nat) :
    (∀ (i : Nat) (l l' : List FirehoseRecord),
        (putRecordsToFirehoseStream streamName records client a m).1.get? i = some l →
        (putRecordsToFirehoseStream streamName records client a m).1.get? (i + 1) = some l' →
        (putRound l (client (a + i) l)).map Prod.fst = some l' ∧ List.Sublist l' l) ∧
    (∀ (recs : List FirehoseRecord) (e : String),
        putRound recs (ClientResult.exn e) = some (recs, e)) := by
  constructor
  · exact putRecords_chain_aux streamName client m (m - a) a records (Nat.le_refl _)
  · intro recs e
    rfl

/-- C1 witness: on the concrete two-record run, round 1 resubmits exactly the
failed classification of round 0, a sublist of the round-0 submission. -/
theorem putRecords_retry_rounds_witness :
    (putRound [recA, recB] (c1client (0 + 0) [recA, recB])).map Prod.fst = some [recA] ∧
    List.Sublist [recA] [recA, recB] :=
  (putRecords_retry_rounds "stream" [recA, recB] c1client 0 20).1 0 [recA, recB] [recA]
    (by simp [putRecordsToFirehoseStream, putRound, collectFailed, recordHasError, c1client])
    (by simp [putRecordsToFirehoseStream, putRound, collectFailed, recordHasError, c1client])

theorem collectFailed_all (records : List FirehoseRecord) :
    ∀ (resps : List RecordResponse) (idx : Nat),
      (∀ r ∈ resps, recordHasError r = true) →
      idx + resps.length = records.length →
      collectFailed records resps idx =
        some (resps.map (fun r => r.errorCode.getD ""), records.drop idx) := by
  intro resps
  induction resps with
  | nil =>
    intro idx _ hlen
    simp only [List.length_nil] at hlen
    simp only [collectFailed, List.map_nil]
    rw [List.drop_eq_nil_of_le (by omega)]
  | cons res rest ih =>
    intro idx hall hlen
    simp only [collectFailed]
    rw [if_pos (hall res (by simp))]
    have hlt : idx < records.length := by simp at hlen; omega
    rw [List.get?_eq_getElem?, List.getElem?_eq_getElem hlt]
    rw [ih (idx + 1) (fun r hr => hall r (by simp [hr])) (by simp at hlen ⊢; omega)]
    simp only [List.map_cons, List.drop_eq_getElem_cons hlt]

theorem putRound_allFail {records : List FirehoseRecord} {resp : BatchResponse}
    (h1 : 0 < resp.failedPutCount)
    (h2 : resp.requestResponses.length = records.length)
    (h3 : ∀ r ∈ resp.requestResponses, recordHasError r = true) :
    putRound records (.ok resp) =
      some (records, "Individual error codes: " ++
        String.intercalate "," (resp.requestResponses.map fun r => r.errorCode.getD "")) := by
  simp only [putRound]
  rw [if_pos h1, collectFailed_all records resp.requestResponses 0 h3 (by omega)]
  rw [List.drop_zero]

theorem putRecords_allFail_aux (streamName : String) (client : FirehoseClient) (m : Nat)
    (hfail : alwaysFails client) (records : List FirehoseRecord) (hr : records ≠ []) :
    ∀ (n a : Nat), a < m → m - a ≤ n →
      ∃ errMsg, putRound records (client (m - 1) records) = some (records, errMsg) ∧
        putRecordsToFirehoseStream streamName records client a m =
          (List.replicate (m - a) records,
            .runtimeError ("Could not put records after " ++ toString m ++
              " attempts. " ++ errMsg)) := by
  intro n
  induction n with
  | zero => intro a ha hn; omega
  | succ n ih =>
    intro a ha hn
    obtain ⟨resp, hcall, hfc, hlen, hcodes⟩ := hfail a records
    have hround : putRound records (client a records) =
        some (records, "Individual error codes: " ++
          String.intercalate "," (resp.requestResponses.map fun r => r.errorCode.getD "")) := by
      rw [hcall]
      exact putRound_allFail hfc hlen hcodes
    by_cases hg : a + 1 < m
    · obtain ⟨errMsg, hroundF, heq⟩ := ih (a + 1) hg (by omega)
      refine ⟨errMsg, hroundF, ?_⟩
      rw [putRecordsToFirehoseStream, hround]
      simp only [List.length_pos.mpr hr, if_true]
      rw [dif_pos hg, heq]
      have hm : m - a = (m - (a + 1)) + 1 := by omega
      rw [hm, List.replicate_succ]
    · have ham : a = m - 1 := by omega
      refine ⟨"Individual error codes: " ++
        String.intercalate "," (resp.requestResponses.map fun r => r.errorCode.getD ""), ?_, ?_⟩
      · rw [← ham]; exact hround
      · rw [putRecordsToFirehoseStream, hround]
        simp only [List.length_pos.mpr hr, if_true]
        rw [dif_neg hg]
        have hm : m - a = 1 := by omega
        rw [hm, List.replicate_one]

/-- C2: if the client reports 100% failure on every call, a delivery started at
`attemptsMade = 0` with budget `maxAttempts` submits exactly `maxAttempts`
batch calls (each with the full record set) and then raises the
`RuntimeError` whose message carries the exhausted attempt count and the
aggregated error codes of the final round. -/
theorem putRecords_allFail_exhausts (streamName : String) (records : List FirehoseRecord)
    (client : FirehoseClient) (m : Nat) (hm : 0 < m) (hr : records ≠ [])
    (hfail : alwaysFails client) :
    (putRecordsToFirehoseStream streamName records client 0 m).1 =
      List.replicate m records ∧
    ∃ errMsg, putRound records (client (m - 1) records) = some (records, errMsg) ∧
      (putRecordsToFirehoseStream streamName records client 0 m).2 =
        .runtimeError ("Could not put records after " ++ toString m ++
          " attempts. " ++ errMsg) := by
  obtain ⟨errMsg, hround, heq⟩ :=
    putRecords_allFail_aux streamName client m hfail records hr m 0 hm (by omega)
  rw [heq]
  exact ⟨by rw [Nat.sub_zero], errMsg, hround, rfl⟩

theorem c2client_alwaysFails : alwaysFails c2client := by
  intro n recs
  refine ⟨⟨1, recs.map fun _ => ⟨some "InternalFailure"⟩⟩, rfl, by norm_num, by simp, ?_⟩
  intro r hr
  simp only [List.mem_map] at hr
  obtain ⟨_, _, hr⟩ := hr
  rw [← hr]
  rfl

/-- C2 witness: with the always-failing client, one record and a budget of 3,
the client is called exactly 3 times and the run ends in the `RuntimeError`
built from the final round's aggregated error codes. -/
theorem putRecords_allFail_exhausts_witness :
    (putRecordsToFirehoseStream "stream" [recA] c2client 0 3).1 =
      List.replicate 3 [recA] ∧
    ∃ errMsg, putRound [recA] (c2client (3 - 1) [recA]) = some ([recA], errMsg) ∧
      (putRecordsToFirehoseStream "stream" [recA] c2client 0 3).2 =
        .runtimeError ("Could not put records after " ++ toString 3 ++
          " attempts. " ++ errMsg) :=
  putRecords_allFail_exhausts "stream" [recA] c2client 3 (by decide) (by decide)
    c2client_alwaysFails

theorem collectFailed_none_failed (records : List FirehoseRecord) :
    ∀ (resps : List RecordResponse) (idx : Nat),
      (∀ r ∈ resps, r.errorCode = none ∨ r.errorCode = some "") →
      collectFailed records resps idx = some ([], []) := by
  intro resps
  induction resps with
  | nil => intro idx _; rfl
  | cons res rest ih =>
    intro idx hall
    have hres : recordHasError res = false := by
      rcases hall res (by simp) with h | h <;> simp [recordHasError, h]
    simp only [collectFailed]
    rw [if_neg (by simp [hres])]
    exact ih (idx + 1) (fun r hr => hall r (by simp [hr]))

/-- C3: when the batch call returns a response with `FailedPutCount = 0`, or
one in which every per-record result's error code is absent or empty, the
coordinator succeeds after exactly one client call; in particular a
present-but-empty error code counts as success, and a zero `FailedPutCount`
makes the result independent of the per-record results entirely. -/
theorem putRecords_zeroFailures_succeeds (streamName : String)
    (records : List FirehoseRecord) (client : FirehoseClient) (a m : Nat)
    (resp : BatchResponse) (hc : client a records = .ok resp)
    (h : resp.failedPutCount = 0 ∨
      ∀ r ∈ resp.requestResponses, r.errorCode = none ∨ r.errorCode = some "") :
    putRecordsToFirehoseStream streamName records client a m = ([records], .success) := by
  rw [putRecordsToFirehoseStream, hc]
  rcases h with h0 | hclean
  · simp [putRound, h0]
  · by_cases hfc : resp.failedPutCount > 0
    · simp [putRound, hfc, collectFailed_none_failed records resp.requestResponses 0 hclean]
    · simp [putRound, hfc]

/-- C3 witness: the present-but-empty error code and the absent one are both
treated as success, so the two-record batch is delivered in one call. -/
theorem putRecords_zeroFailures_succeeds_witness :
    putRecordsToFirehoseStream "stream" [recA, recB] c3client 0 20 =
      ([[recA, recB]], .success) :=
  putRecords_zeroFailures_succeeds "stream" [recA, recB] c3client 0 20
    ⟨1, [⟨some ""⟩, ⟨none⟩]⟩ rfl (Or.inr (by decide))

/-- C4 counterexample: with the first item undecodable and the second a valid
`DATA_MESSAGE`, the invocation aborts on the first item — no batch is
transformed and no delivery happens for the second item — although the second
item alone would be processed and delivered; so a decode error is not local to
its item, contradicting the claim. -/
theorem processRecords_decode_error_cex :
    processRecords c4decode [⟨"bad"⟩, ⟨"good"⟩] c0client "stream" 0 =
      ⟨[], [], some (.decodeError "Not a gzipped file")⟩ ∧
    processRecords c4decode [⟨"good"⟩] c0client "stream" 0 =
      ⟨[[]], [([], [[]], .success)], none⟩ := by
  constructor
  · rfl
  · simp [processRecords, c4decode, c0client, putRecordsToFirehoseStream, putRound,
      createRecordsFromLogEvents]

/-- C4 (amended): a decode error on an item is not local to that item — the
exception propagates out of `processRecords` at once, so the item's batch is
not transformed and no subsequent item is processed; decode errors abort the
remaining items exactly as delivery exhaustion does. -/
theorem processRecords_decode_error_aborts (decode : String → DecodeResult)
    (client : FirehoseClient) (item : InputItem) (rest : List InputItem)
    (streamName : String) (tz : Int) (e : String)
    (hd : decode item.data = .err e) :
    processRecords decode (item :: rest) client streamName tz =
      ⟨[], [], some (.decodeError e)⟩ := by
  simp [processRecords, hd]

/-- C4 witness: the amended abort behaviour at the concrete undecodable item. -/
theorem processRecords_decode_error_aborts_witness :
    processRecords c4decode [⟨"bad"⟩, ⟨"good"⟩] c0client "stream" 0 =
      ⟨[], [], some (.decodeError "Not a gzipped file")⟩ :=
  processRecords_decode_error_aborts c4decode c0client ⟨"bad"⟩ [⟨"good"⟩] "stream" 0
    "Not a gzipped file" rfl

/-- C8: an item whose decoded batch has a `messageType` other than
`DATA_MESSAGE` is a pure no-op: the invocation's result is exactly that of the
remaining items — no output batch, no delivery invocation, no error. -/
theorem processRecords_skips_non_data_message (decode : String → DecodeResult)
    (client : FirehoseClient) (item : InputItem) (rest : List InputItem)
    (streamName : String) (tz : Int) (d : DecodedData) (mt : String)
    (hd : decode item.data = .ok d) (hmt : d.messageType = some mt)
    (hne : mt ≠ "DATA_MESSAGE") :
    processRecords decode (item :: rest) client streamName tz =
      processRecords decode rest client streamName tz := by
  simp [processRecords, hd, hmt, hne]

/-- C8 witness: a `CONTROL_MESSAGE` item contributes nothing. -/
theorem processRecords_skips_non_data_message_witness :
    processRecords c8decode [⟨"x"⟩] c0client "stream" 0 =
      processRecords c8decode [] c0client "stream" 0 :=
  processRecords_skips_non_data_message c8decode c0client ⟨"x"⟩ [] "stream" 0
    ⟨some "CONTROL_MESSAGE", none, none, none, none⟩ "CONTROL_MESSAGE" rfl rfl (by decide)

/-- C10: a `DATA_MESSAGE` item with an empty `logEvents` list is not skipped:
the coordinator is invoked for it with the empty record list, the client is
called exactly once with that empty list, and — the client reporting zero
failures — the delivery succeeds without retry while processing continues with
the remaining items. -/
theorem processRecords_empty_logEvents_delivers (decode : String → DecodeResult)
    (client : FirehoseClient) (item : InputItem) (rest : List InputItem)
    (streamName : String) (tz : Int) (d : DecodedData) (ow lg ls : String)
    (resp : BatchResponse)
    (hd : decode item.data = .ok d) (hmt : d.messageType = some "DATA_MESSAGE")
    (hev : d.logEvents = some []) (how : d.owner = some ow)
    (hlg : d.logGroup = some lg) (hls : d.logStream = some ls)
    (hc : client 0 [] = .ok resp) (hfc : resp.failedPutCount = 0) :
    processRecords decode (item :: rest) client streamName tz =
      ⟨[] :: (processRecords decode rest client streamName tz).rV,
        ([], [[]], .success) :: (processRecords decode rest client streamName tz).deliveries,
        (processRecords decode rest client streamName tz).err⟩ := by
  have hput : putRecordsToFirehoseStream streamName [] client 0 20 = ([[]], .success) :=
    putRecords_zeroFailures_succeeds streamName [] client 0 20 resp hc (Or.inl hfc)
  simp [processRecords, hd, hmt, hev, how, hlg, hls, createRecordsFromLogEvents, hput]

/-- C10 witness: the concrete empty `DATA_MESSAGE` batch is delivered in one
client call with the empty record list. -/
theorem processRecords_empty_logEvents_delivers_witness :
    processRecords c10decode [⟨"x"⟩] c0client "stream" 0 =
      ⟨[] :: (processRecords c10decode [] c0client "stream" 0).rV,
        ([], [[]], .success) :: (processRecords c10decode [] c0client "stream" 0).deliveries,
        (processRecords c10decode [] c0client "stream" 0).err⟩ :=
  processRecords_empty_logEvents_delivers c10decode c0client ⟨"x"⟩ [] "stream" 0
    ⟨some "DATA_MESSAGE", some "acct1", some "/app/log", some "stream1", some []⟩
    "acct1" "/app/log" "stream1" ⟨0, []⟩ rfl rfl rfl rfl rfl rfl rfl rfl

/-- C9: for every invocation input whose `deliveryStreamArn` has an index-1
`'/'`-split segment, that segment is the stream identity the handler passes to
`processRecords`; when the split has no second segment the handler raises
`IndexError`; and the concrete scenario ARN yields exactly `"my-stream"`. -/
theorem lambda_handler_stream_identity (decode : String → DecodeResult)
    (client : FirehoseClient) (tz : Int) :
    (∀ (ev : LambdaEvent) (streamName : String),
        (pySplit '/' ev.deliveryStreamArn).get? 1 = some streamName →
        lambda_handler decode client ev tz =
          (processRecords decode ev.records client streamName tz).err) ∧
    (∀ ev : LambdaEvent, (pySplit '/' ev.deliveryStreamArn).length ≤ 1 →
        lambda_handler decode client ev tz = some PyError.indexError) ∧
    (pySplit '/' "arn:aws:firehose:us-east-1:123:deliverystream/my-stream").get? 1 =
      some "my-stream" ∧
    (∀ (region : String) (records : List InputItem),
        lambda_handler decode client
          ⟨region, "arn:aws:firehose:us-east-1:123:deliverystream/my-stream", records⟩ tz =
          (processRecords decode records client "my-stream" tz).err) := by
  refine ⟨?_, ?_, by decide, ?_⟩
  · intro ev streamName hseg
    rw [lambda_handler, hseg]
  · intro ev hlen
    have hnone : (pySplit '/' ev.deliveryStreamArn).get? 1 = none :=
      List.get?_eq_none.mpr hlen
    rw [lambda_handler, hnone]
  · intro region records
    rfl

/-- C9 witness: the handler raises `IndexError` on an ARN without a `/`, and
with the scenario ARN — whose index-1 segment is `"my-stream"` — it runs the
pipeline under stream name `"my-stream"`. -/
theorem lambda_handler_stream_identity_witness :
    lambda_handler c8decode c0client
      ⟨"us-east-1", "arn:aws:firehose:us-east-1:123:deliverystream/my-stream", []⟩ 0 =
      (processRecords c8decode [] c0client "my-stream" 0).err ∧
    lambda_handler c8decode c0client ⟨"us-east-1", "no-slash-here", []⟩ 0 =
      some PyError.indexError :=
  ⟨(lambda_handler_stream_identity c8decode c0client 0).1
      ⟨"us-east-1", "arn:aws:firehose:us-east-1:123:deliverystream/my-stream", []⟩
      "my-stream" (by decide),
    (lambda_handler_stream_identity c8decode c0client 0).2.1
      ⟨"us-east-1", "no-slash-here", []⟩ (by decide)⟩

/-- C5: the recognized level names map, case-insensitively, to their levels and
an absent setting defaults to info (level 20); but an unrecognized value does
not default to info — `levels.get` returns `None`, `Logger.setLevel(None)`
raises `TypeError`, and the `except KeyError` handler cannot catch it, so
configuration fails instead of completing. -/
theorem configureLogLevel_behaviour :
    configureLogLevel (some "verbose") = .typeError ∧
    configureLogLevel none = .level 20 ∧
    configureLogLevel (some "critical") = .level 50 ∧
    configureLogLevel (some "Error") = .level 40 ∧
    configureLogLevel (some "WARN") = .level 30 ∧
    configureLogLevel (some "Info") = .level 20 ∧
    configureLogLevel (some "DEBUG") = .level 10 := by
  decide

/-- C6 counterexample: on the scenario input the produced record has no field
named `message` (nor `owner`, `log_group`, `log_stream`): the source prefixes
these keys with `@`, so the value `"hello"` lives under `@message`. -/
theorem transformLogEvent_field_names_cex :
    (transformLogEvent ⟨"1", 1609459200000, "hello"⟩ "acct1" "/app/log" "stream1" 0).lookup
      "message" = none ∧
    (transformLogEvent ⟨"1", 1609459200000, "hello"⟩ "acct1" "/app/log" "stream1" 0).lookup
      "owner" = none ∧
    (transformLogEvent ⟨"1", 1609459200000, "hello"⟩ "acct1" "/app/log" "stream1" 0).lookup
      "log_group" = none ∧
    (transformLogEvent ⟨"1", 1609459200000, "hello"⟩ "acct1" "/app/log" "stream1" 0).lookup
      "log_stream" = none ∧
    (transformLogEvent ⟨"1", 1609459200000, "hello"⟩ "acct1" "/app/log" "stream1" 0).lookup
      "@message" = some "hello" := by
  decide

/-- C6 (amended): on the scenario input the record's fields are `id`, `type`,
`@message`, `@owner`, `@log_group`, `@log_stream` — holding `"1"`,
`"CloudWatchLogs"`, `"hello"`, `"acct1"`, `"/app/log"`, `"stream1"` — plus a
`timestamp` field carrying the local-offset ISO rendering of the instant,
which at offset zero is `"2021-01-01T00:00:00"`; `id` and `message` values are
passed through unmodified for every event. -/
theorem transformLogEvent_scenario (tz : Int) :
    (transformLogEvent ⟨"1", 1609459200000, "hello"⟩ "acct1" "/app/log" "stream1" tz).lookup
      "id" = some "1" ∧
    (transformLogEvent ⟨"1", 1609459200000, "hello"⟩ "acct1" "/app/log" "stream1" tz).lookup
      "type" = some "CloudWatchLogs" ∧
    (transformLogEvent ⟨"1", 1609459200000, "hello"⟩ "acct1" "/app/log" "stream1" tz).lookup
      "@message" = some "hello" ∧
    (transformLogEvent ⟨"1", 1609459200000, "hello"⟩ "acct1" "/app/log" "stream1" tz).lookup
      "@owner" = some "acct1" ∧
    (transformLogEvent ⟨"1", 1609459200000, "hello"⟩ "acct1" "/app/log" "stream1" tz).lookup
      "@log_group" = some "/app/log" ∧
    (transformLogEvent ⟨"1", 1609459200000, "hello"⟩ "acct1" "/app/log" "stream1" tz).lookup
      "@log_stream" = some "stream1" ∧
    (transformLogEvent ⟨"1", 1609459200000, "hello"⟩ "acct1" "/app/log" "stream1" tz).lookup
      "timestamp" = some (pyFromtimestampIsoformat tz 1609459200000) ∧
    pyFromtimestampIsoformat 0 1609459200000 = "2021-01-01T00:00:00" ∧
    ∀ (ev : LogEvent) (ow lg ls : String),
      (transformLogEvent ev ow lg ls tz).lookup "id" = some ev.id ∧
      (transformLogEvent ev ow lg ls tz).lookup "@message" = some ev.message := by
  refine ⟨rfl, rfl, rfl, rfl, rfl, rfl, rfl, by decide, ?_⟩
  intro ev ow lg ls
  exact ⟨rfl, rfl⟩

theorem micros_split_helper (ms tz : Int) :
    ms * 1000 + tz * 1000000 = ms.emod 1000 * 1000 + (ms.ediv 1000 + tz) * 1000000 := by
  have hms := Int.ediv_add_emod ms 1000
  linear_combination (-1000 : Int) * hms

theorem micros_ediv_helper (ms tz : Int) :
    (ms * 1000 + tz * 1000000).ediv 1000000 = ms.ediv 1000 + tz := by
  have h0 : 0 ≤ ms.emod 1000 := Int.emod_nonneg ms (by norm_num)
  have h1 : ms.emod 1000 < 1000 := Int.emod_lt_of_pos ms (by norm_num)
  have h2 : (ms.emod 1000 * 1000 + (ms.ediv 1000 + tz) * 1000000).ediv 1000000 =
      (ms.emod 1000 * 1000).ediv 1000000 + (ms.ediv 1000 + tz) :=
    Int.add_mul_ediv_right _ _ (by norm_num)
  have h3 : (ms.emod 1000 * 1000).ediv 1000000 = 0 :=
    Int.ediv_eq_zero_of_lt (by omega) (by omega)
  rw [micros_split_helper ms tz, h2, h3]
  omega

theorem micros_emod_helper (ms tz : Int) :
    (ms * 1000 + tz * 1000000).emod 1000000 = ms.emod 1000 * 1000 := by
  have h0 : 0 ≤ ms.emod 1000 := Int.emod_nonneg ms (by norm_num)
  have h1 : ms.emod 1000 < 1000 := Int.emod_lt_of_pos ms (by norm_num)
  have h2 : (ms.emod 1000 * 1000 + (ms.ediv 1000 + tz) * 1000000).emod 1000000 =
      (ms.emod 1000 * 1000).emod 1000000 :=
    Int.add_mul_emod_self
  have h3 : (ms.emod 1000 * 1000).emod 1000000 = ms.emod 1000 * 1000 :=
    Int.emod_eq_of_lt (by omega) (by omega)
  rw [micros_split_helper ms tz, h2, h3]

/-- C7 (amended): the `timestamp` field is the local-timezone ISO-8601
rendering of `epoch-millis / 1000` seconds since the epoch; it has seconds
precision exactly when the epoch-millis value is a multiple of 1000 — otherwise
the rendering strictly extends the seconds-precision string with a six-digit
fractional-seconds part and therefore differs from it. -/
theorem transformLogEvent_timestamp_rendering (ev : LogEvent) (ow lg ls : String)
    (tz : Int) :
    (transformLogEvent ev ow lg ls tz).lookup "timestamp" =
      some (pyFromtimestampIsoformat tz ev.timestamp) ∧
    (ev.timestamp.emod 1000 = 0 →
      pyFromtimestampIsoformat tz ev.timestamp =
        isoSecondsOfEpochSeconds (ev.timestamp.ediv 1000 + tz)) ∧
    (ev.timestamp.emod 1000 ≠ 0 →
      pyFromtimestampIsoformat tz ev.timestamp =
        isoSecondsOfEpochSeconds (ev.timestamp.ediv 1000 + tz) ++ "." ++
          padZero 6 (ev.timestamp.emod 1000 * 1000).toNat ∧
      pyFromtimestampIsoformat tz ev.timestamp ≠
        isoSecondsOfEpochSeconds (ev.timestamp.ediv 1000 + tz)) := by
  refine ⟨rfl, ?_, ?_⟩
  · intro h
    simp only [pyFromtimestampIsoformat, isoOfEpochMicros,
      micros_ediv_helper, micros_emod_helper, h]
    norm_num
  · intro h
    have h0 : 0 ≤ ev.timestamp.emod 1000 := Int.emod_nonneg ev.timestamp (by norm_num)
    have hfrac : (ev.timestamp.emod 1000 * 1000).toNat ≠ 0 := by omega
    constructor
    · simp only [pyFromtimestampIsoformat, isoOfEpochMicros,
        micros_ediv_helper, micros_emod_helper]
      rw [if_neg hfrac]
    · simp only [pyFromtimestampIsoformat, isoOfEpochMicros,
        micros_ediv_helper, micros_emod_helper]
      rw [if_neg hfrac]
      intro heq
      have hlen := congrArg String.length heq
      rw [String.length_append, String.length_append] at hlen
      have hdot : (".").length = 1 := rfl
      omega

/-- C7 counterexample: at epoch-millis 1609459200123 (offset 0) the rendered
timestamp is `"2021-01-01T00:00:00.123000"` — it carries a six-digit
fractional-seconds part and differs from the seconds-precision rendering, so
the output is not a seconds-precision ISO string. -/
theorem timestamp_not_seconds_precision_cex :
    pyFromtimestampIsoformat 0 1609459200123 = "2021-01-01T00:00:00.123000" ∧
    pyFromtimestampIsoformat 0 1609459200123 ≠
      isoSecondsOfEpochSeconds ((1609459200123 : Int).ediv 1000 + 0) := by
  decide

/-- C7 witness: at a millisecond value that is a multiple of 1000 the rendering
is the seconds-precision string. -/
theorem transformLogEvent_timestamp_rendering_witness :
    pyFromtimestampIsoformat 0 1609459200000 =
      isoSecondsOfEpochSeconds ((1609459200000 : Int).ediv 1000 + 0) ∧
    isoSecondsOfEpochSeconds ((1609459200000 : Int).ediv 1000 + 0) =
      "2021-01-01T00:00:00" :=
  ⟨(transformLogEvent_timestamp_rendering ⟨"1", 1609459200000, "hello"⟩ "acct1"
      "/app/log" "stream1" 0).2.1 (by decide), by decide⟩
